import Mathlib

/-!
Verification of the real-time chat client of this repository.

The development shallowly embeds the two source units the claims are about:

* `frontend/app/services/websocket.ts` (`WebSocketService`): the client
  session manager — connection lifecycle, reconnection with exponential
  backoff, inbound message parsing and dispatch.
* `frontend/app/components/Chat.tsx`: the optimistic-update reconciliation
  of the observed message sequence (`handleNewMessage`, `handleSendMessage`).

JavaScript strings are modelled as Lean `String`; `string.startsWith(p)`
and `string.includes('T')` are modelled on the underlying character
sequence (`String.data`).  Machine timers are modelled by recording the
scheduled delay; `Date` parsing (`new Date(s).toISOString()`), an external
library facility, is a parameter `dateToISO : String → Option String`
where `none` models a thrown `RangeError` on an invalid date.
-/

/-- Model of `string.startsWith(pre)` on JavaScript strings. -/
def strStartsWith (s pre : String) : Bool :=
  pre.data.isPrefixOf s.data

/-- Model of `string.includes('T')`: the single character `T` occurs in `s`. -/
def strIncludesT (s : String) : Bool :=
  s.data.contains 'T'

namespace WebSocketService

/-- The `readyState` of a browser `WebSocket` object. -/
inductive ReadyState where
  | connecting
  | opened
  | closing
  | closed
deriving DecidableEq

/-- A live transport handle (`this.ws` when non-null). -/
structure Conn where
  readyState : ReadyState
deriving DecidableEq

/-- The mutable fields of the `WebSocketService` singleton.  `ws` is the
transport handle or `null`; `hasMessageHandler` records whether
`messageHandler` is non-null; `reconnectTimeout` records the delay of the
pending reconnect timer when one is scheduled; `hasConnectionPromise`
records whether `connectionPromise` is non-null. -/
structure State where
  ws : Option Conn
  hasMessageHandler : Bool
  isConnecting : Bool
  reconnectAttempts : Nat
  currentThreadId : Option Int
  reconnectTimeout : Option Nat
  hasConnectionPromise : Bool
deriving DecidableEq

/-- `maxReconnectAttempts = 5` in the source. -/
def maxReconnectAttempts : Nat := 5

/-- The backoff delay computed in `ws.onclose`:
`Math.min(1000 * Math.pow(2, this.reconnectAttempts), 10000)`. -/
def backoffDelay (attempts : Nat) : Nat :=
  min (1000 * 2 ^ attempts) 10000

/-- The `ws.onclose` handler installed by `establishConnection`, for a
socket bound to `threadId`, receiving a close event with code `code`.
It clears `isConnecting` and drops the socket, then — when the closed
thread is still the current one and the attempt counter is below the
ceiling — schedules a reconnect after the backoff delay and increments
the counter.  Returns the new state together with the scheduled delay,
`none` when no reconnect was scheduled.  Note that `event.code` is never
consulted by the source handler. -/
def handleClose (st : State) (threadId : Int) (code : Nat) : State × Option Nat :=
  let st1 : State := { st with isConnecting := false, ws := none }
  if st1.currentThreadId = some threadId ∧ st1.reconnectAttempts < maxReconnectAttempts then
    let d := backoffDelay st1.reconnectAttempts
    ({ st1 with reconnectAttempts := st1.reconnectAttempts + 1, reconnectTimeout := some d },
      some d)
  else
    (st1, none)

/-- The `ws.onopen` handler: clears `isConnecting`, resets the attempt
counter to zero; the browser moves the socket to the OPEN ready state. -/
def handleOpen (st : State) : State :=
  { st with
    isConnecting := false
    reconnectAttempts := 0
    ws := st.ws.map fun c => { c with readyState := ReadyState.opened } }

/-- `disconnect()`: clears any pending reconnect timer and the connection
promise; when a socket exists, closes it and — in the close callback —
drops the socket, the handler, the connecting flag, the attempt counter
and the current thread; when no socket exists it returns at once, leaving
the remaining fields untouched. -/
def disconnect (st : State) : State :=
  let st1 : State := { st with reconnectTimeout := none, hasConnectionPromise := false }
  match st1.ws with
  | some _ =>
      { st1 with
        ws := none
        hasMessageHandler := false
        isConnecting := false
        reconnectAttempts := 0
        currentThreadId := none }
  | none => st1

/-- The externally observable effect of a `connect` call. -/
inductive ConnectAction where
  | noop
  | joinInFlight
  | handshake
deriving DecidableEq

/-- Whether `this.ws?.readyState === WebSocket.OPEN`. -/
def wsIsOpen (st : State) : Bool :=
  match st.ws with
  | some c => c.readyState = ReadyState.opened
  | none => false

/-- `connect(threadId, onMessage)`: a no-op when already connected to the
same thread; otherwise disconnects first when bound to a different thread,
joins an in-flight attempt when one exists, and otherwise clears any
pending reconnect timer, registers the handler, records the thread and
starts a new transport handshake (a fresh socket in the CONNECTING state,
with `connectionPromise` set). -/
def connect (st : State) (threadId : Int) : State × ConnectAction :=
  if wsIsOpen st = true ∧ st.currentThreadId = some threadId then
    (st, ConnectAction.noop)
  else
    let st1 := if st.currentThreadId ≠ none ∧ st.currentThreadId ≠ some threadId then
        disconnect st
      else st
    if st1.isConnecting then
      (st1, ConnectAction.joinInFlight)
    else
      ({ st1 with
          reconnectTimeout := none
          isConnecting := true
          hasMessageHandler := true
          currentThreadId := some threadId
          ws := some { readyState := ReadyState.connecting }
          hasConnectionPromise := true },
        ConnectAction.handshake)

/-- One unexpected-close/reconnect cycle for thread `tid`: the close
handler runs (possibly scheduling a reconnect); when a reconnect was
scheduled, its timer fires and `connect` re-attempts the connection.
Returns the resulting state and the delay that was scheduled, if any. -/
def closeConnectCycle (tid : Int) (code : Nat) (st : State) : State × Option Nat :=
  match handleClose st tid code with
  | (st1, some d) => ((connect st1 tid).1, some d)
  | (st1, none) => (st1, none)

/-- `k` consecutive unexpected closes (each followed by the scheduled
reconnect attempt, which fails and closes again), collecting the list of
scheduled backoff delays in order. -/
def runCycles (tid : Int) (code : Nat) : State → Nat → State × List Nat
  | st, 0 => (st, [])
  | st, Nat.succ k =>
      let p := closeConnectCycle tid code st
      let q := runCycles tid code p.1 k
      (q.1, p.2.toList ++ q.2)

/-- A JavaScript value as it can appear in a parsed JSON payload field. -/
inductive JSVal where
  | vnum (n : Int)
  | vstr (s : String)
  | vnull
  | vundef
  | vbool (b : Bool)
deriving DecidableEq

/-- JavaScript truthiness of a payload field (`!x` is `!truthy x`):
`0`, the empty string, `null`, `undefined` and `false` are falsy. -/
def truthy : JSVal → Bool
  | JSVal.vnum n => n ≠ 0
  | JSVal.vstr s => s ≠ ""
  | JSVal.vnull => false
  | JSVal.vundef => false
  | JSVal.vbool b => b

/-- JavaScript strict equality (`===`) on modelled values. -/
def jsStrictEq : JSVal → JSVal → Bool
  | JSVal.vnum a, JSVal.vnum b => a = b
  | JSVal.vstr a, JSVal.vstr b => a = b
  | JSVal.vnull, JSVal.vnull => true
  | JSVal.vundef, JSVal.vundef => true
  | JSVal.vbool a, JSVal.vbool b => a = b
  | _, _ => false

/-- The `data` object of an inbound wire envelope, after JSON parsing and
envelope unwrapping.  `created_at` is `some s` when the field is a string
and `none` when absent. -/
structure RawMessageData where
  id : JSVal
  thread_id : JSVal
  content : JSVal
  role : JSVal
  created_at : Option String
deriving DecidableEq

/-- The `Message` object built by `parseMessage`. -/
structure ParsedMessage where
  id : JSVal
  thread_id : JSVal
  content : JSVal
  role : JSVal
  created_at : String
deriving DecidableEq

/-- The `created_at` normalization of `parseMessage` (lines 46–62 of
`websocket.ts`): when the field is truthy and does not contain the
character `T`, it is run through `new Date(...).toISOString()` with the
current time as fallback when that throws; the final value falls back to
the current time when it is falsy.  `dateToISO s = none` models the
`toISOString` call throwing on an invalid date. -/
def normalizeCreatedAt (dateToISO : String → Option String) (now : String)
    (created_at : Option String) : String :=
  let s0 := created_at.getD ""
  let s1 := if s0 ≠ "" ∧ strIncludesT s0 = false then (dateToISO s0).getD now else s0
  if s1 = "" then now else s1

/-- `parseMessage` after envelope unwrapping: throws (`none`) when any of
`id`, `thread_id`, `content`, `role` is falsy, otherwise builds the
`Message` with the normalized `created_at`. -/
def parseMessage (dateToISO : String → Option String) (now : String)
    (d : RawMessageData) : Option ParsedMessage :=
  if truthy d.id = true ∧ truthy d.thread_id = true ∧ truthy d.content = true ∧
      truthy d.role = true then
    some
      { id := d.id
        thread_id := d.thread_id
        content := d.content
        role := d.role
        created_at := normalizeCreatedAt dateToISO now d.created_at }
  else
    none

/-- The `ws.onmessage` handler: parses the payload (exceptions are caught
and the payload dropped), drops messages for a thread other than the
current one (`message.thread_id !== this.currentThreadId`), and dispatches
to the registered handler when one exists.  Returns the message delivered
to the handler, `none` when nothing is delivered. -/
def deliverInbound (dateToISO : String → Option String) (now : String)
    (currentThreadId : JSVal) (hasHandler : Bool) (d : RawMessageData) :
    Option ParsedMessage :=
  match parseMessage dateToISO now d with
  | none => none
  | some m =>
      if jsStrictEq m.thread_id currentThreadId = true then
        if hasHandler then some m else none
      else none

end WebSocketService

namespace Chat

/-- A client-side message identifier: a server-assigned number or a
client-fabricated temporary string. -/
inductive MsgId where
  | num (n : Int)
  | str (s : String)
deriving DecidableEq

/-- A message as held in the `messages` state of the `Chat` component. -/
structure CMessage where
  id : MsgId
  content : String
  role : String
  created_at : String
  thread_id : Int
deriving DecidableEq

/-- A message is confirmed when it carries a server-assigned numeric
identifier. -/
def isConfirmedMsg (m : CMessage) : Bool :=
  match m.id with
  | MsgId.num _ => true
  | MsgId.str _ => false

/-- The replacement test of `handleNewMessage`:
`msg.content === newMessage.content && msg.role === 'user' &&
typeof msg.id === 'string' && msg.id.startsWith('temp_')`. -/
def isOptimisticFor (content : String) (msg : CMessage) : Bool :=
  decide (msg.content = content) && decide (msg.role = "user") &&
    (match msg.id with
     | MsgId.str s => strStartsWith s "temp_"
     | MsgId.num _ => false)

/-- `prev.find(msg => msg.id === tempId)`. -/
def findById (prev : List CMessage) (tempId : String) : Option CMessage :=
  prev.find? fun msg => decide (msg.id = MsgId.str tempId)

/-- `handleNewMessage` of `Chat.tsx`: for a confirmed `user` message,
every pending temporary identifier whose message in the sequence has the
same content is removed from the pending set, and every optimistic
message with the same content is replaced in place by the confirmed one;
any other role is appended to the sequence.  State is the pair of the
observed sequence and the pending set (in insertion order). -/
def handleNewMessage (prev : List CMessage) (pending : List String)
    (nm : CMessage) : List CMessage × List String :=
  if nm.role = "user" then
    let pending1 := pending.filter fun tempId =>
      match findById prev tempId with
      | some m => decide (¬ m.content = nm.content)
      | none => true
    let prev1 := prev.map fun msg => if isOptimisticFor nm.content msg = true then nm else msg
    (prev1, pending1)
  else
    (prev ++ [nm], pending)

/-- The optimistic message fabricated by `handleSendMessage`. -/
def mkOptimistic (tempId content : String) (threadId : Int) (now : String) : CMessage :=
  { id := MsgId.str tempId
    content := content
    role := "user"
    created_at := now
    thread_id := threadId }

/-- A `handleSendMessage` call whose transmission succeeds: the temporary
identifier joins the pending set and the optimistic message is appended
to the observed sequence. -/
def sendMessageSuccess (msgs : List CMessage) (pending : List String)
    (tempId content : String) (threadId : Int) (now : String) :
    List CMessage × List String :=
  (msgs ++ [mkOptimistic tempId content threadId now], pending ++ [tempId])

/-- A `handleSendMessage` call whose transmission fails: the optimistic
insertion happens as in the success case, then the catch block deletes
the temporary identifier from the pending set, filters the message with
that identifier out of the sequence, and surfaces the error (the Boolean
component records that `setError` was called). -/
def sendMessageFailure (msgs : List CMessage) (pending : List String)
    (tempId content : String) (threadId : Int) (now : String) :
    List CMessage × List String × Bool :=
  let s1 := sendMessageSuccess msgs pending tempId content threadId now
  let pending2 := s1.2.filter fun x => decide (¬ x = tempId)
  let msgs2 := s1.1.filter fun m => decide (¬ m.id = MsgId.str tempId)
  (msgs2, pending2, true)

/-- The temporary identifiers of the not-yet-confirmed messages of the
observed sequence, in sequence order. -/
def unconfirmedIds (msgs : List CMessage) : List String :=
  msgs.filterMap fun m =>
    match m.id with
    | MsgId.str s => some s
    | MsgId.num _ => none

/-- Well-formedness of one observed message: a confirmed message is
always well formed; an unconfirmed one must be user-authored with a
`temp_`-namespaced identifier (the only way `handleSendMessage` fabricates
them). -/
def wfMsg (m : CMessage) : Bool :=
  match m.id with
  | MsgId.num _ => true
  | MsgId.str s => decide (m.role = "user") && strStartsWith s "temp_"

/-- The reconciliation invariant of the `Chat` component state: the
pending set is exactly the list of temporary identifiers of unconfirmed
messages of the sequence (in order), it has no duplicates, and every
message of the sequence is well formed. -/
def ChatInv (msgs : List CMessage) (pending : List String) : Prop :=
  unconfirmedIds msgs = pending ∧ pending.Nodup ∧ ∀ m ∈ msgs, wfMsg m = true

/-- An event acting on the component state. -/
inductive ChatEv where
  | sendOk (tempId content : String) (threadId : Int) (now : String)
  | sendFail (tempId content : String) (threadId : Int) (now : String)
  | recv (m : CMessage)

/-- The state transition of one event. -/
def chatStep (s : List CMessage × List String) : ChatEv → List CMessage × List String
  | ChatEv.sendOk t c tid now => sendMessageSuccess s.1 s.2 t c tid now
  | ChatEv.sendFail t c tid now =>
      let r := sendMessageFailure s.1 s.2 t c tid now
      (r.1, r.2.1)
  | ChatEv.recv m => handleNewMessage s.1 s.2 m

/-- Side conditions under which an event is well formed at a state: a send
uses a fresh `temp_`-namespaced identifier, and a delivery carries a
server-confirmed (numeric-identifier) message. -/
def evOk (s : List CMessage × List String) : ChatEv → Prop
  | ChatEv.sendOk t _ _ _ => t ∉ s.2 ∧ strStartsWith t "temp_" = true
  | ChatEv.sendFail t _ _ _ => t ∉ s.2 ∧ strStartsWith t "temp_" = true
  | ChatEv.recv m => isConfirmedMsg m = true

/-- A trace of events, each well formed at the state it acts on. -/
def goodTrace : List CMessage × List String → List ChatEv → Prop
  | _, [] => True
  | s, e :: es => evOk s e ∧ goodTrace (chatStep s e) es

/-- Folding a trace of events over a state. -/
def chatRun (s : List CMessage × List String) (es : List ChatEv) :
    List CMessage × List String :=
  es.foldl chatStep s

end Chat

/-- A connected session-manager state on thread 42 with no prior failed
attempts, as it stands right before an unexpected close. -/
def connectedState42 : WebSocketService.State :=
  { ws := some { readyState := WebSocketService.ReadyState.opened }
    hasMessageHandler := true
    isConnecting := false
    reconnectAttempts := 0
    currentThreadId := some 42
    reconnectTimeout := none
    hasConnectionPromise := true }

/-- C3 counterexample: a transport close with validation code 4004
(conversation not found), received while thread 42 is still the current
thread and no attempts have been made, DOES schedule an automatic
reconnect (delay 1000 ms, attempt counter bumped to 1) — the close
handler never inspects the close code. -/
theorem close4004_schedules_reconnect :
    (WebSocketService.handleClose connectedState42 42 4004).2 = some 1000 ∧
    (WebSocketService.handleClose connectedState42 42 4004).1.reconnectTimeout = some 1000 ∧
    (WebSocketService.handleClose connectedState42 42 4004).1.reconnectAttempts = 1 := by
  decide

/-- C3 amended: the close handler ignores the close code entirely — a
close with code 4004 (or 4003, 4005) is handled exactly like any other
close, and a reconnect is scheduled precisely when the closed conversation
is still the current one and the attempt counter is below the ceiling. -/
theorem close_code_ignored (st : WebSocketService.State) (tid : Int) (code : Nat) :
    WebSocketService.handleClose st tid code = WebSocketService.handleClose st tid 4004 ∧
    ((WebSocketService.handleClose st tid code).2 ≠ none ↔
      st.currentThreadId = some tid ∧
        st.reconnectAttempts < WebSocketService.maxReconnectAttempts) := by
  refine ⟨rfl, ?_⟩
  by_cases h : st.currentThreadId = some tid ∧
      st.reconnectAttempts < WebSocketService.maxReconnectAttempts
  · simp [WebSocketService.handleClose, h]
  · simp [WebSocketService.handleClose, h]

/-- A state in the middle of a backoff wait: no live socket, three failed
attempts so far, a reconnect timer pending. -/
def backoffWaitState : WebSocketService.State :=
  { ws := none
    hasMessageHandler := true
    isConnecting := false
    reconnectAttempts := 3
    currentThreadId := some 42
    reconnectTimeout := some 4000
    hasConnectionPromise := false }

/-- C6 counterexample: calling `disconnect()` while waiting out a backoff
delay (no live socket, attempt counter 3 and a timer pending) cancels the
timer but leaves the attempt counter at 3 — it is not reset to zero. -/
theorem disconnect_no_socket_keeps_counter :
    (WebSocketService.disconnect backoffWaitState).reconnectTimeout = none ∧
    (WebSocketService.disconnect backoffWaitState).reconnectAttempts = 3 ∧
    ¬ (WebSocketService.disconnect backoffWaitState).reconnectAttempts = 0 := by
  decide

/-- C6 amended: `disconnect()` always cancels a pending reconnect timer
and drops the connection promise, but it resets the attempt counter to
zero only when a live socket exists; when no socket exists the counter is
left unchanged. -/
theorem disconnect_cancels_timer (st : WebSocketService.State) :
    (WebSocketService.disconnect st).reconnectTimeout = none ∧
    (WebSocketService.disconnect st).hasConnectionPromise = false ∧
    (WebSocketService.disconnect st).reconnectAttempts =
      (match st.ws with
       | none => st.reconnectAttempts
       | some _ => 0) := by
  cases h : st.ws <;> simp [WebSocketService.disconnect, h]

/-- C7: when a live connection to thread `tid` is open, `connect st tid`
is a no-op — it returns the state unchanged (socket handle, current
thread and attempt counter included) and performs no handshake and no
disconnect. -/
theorem connect_idempotent_same_thread (st : WebSocketService.State)
    (c : WebSocketService.Conn) (tid : Int) (h1 : st.ws = some c)
    (h2 : c.readyState = WebSocketService.ReadyState.opened)
    (h3 : st.currentThreadId = some tid) :
    WebSocketService.connect st tid = (st, WebSocketService.ConnectAction.noop) := by
  have hopen : WebSocketService.wsIsOpen st = true := by
    simp [WebSocketService.wsIsOpen, h1, h2]
  simp [WebSocketService.connect, hopen, h3]

/-- Evaluating the close handler when a reconnect is due. -/
theorem handleClose_schedules (st : WebSocketService.State) (tid : Int) (code : Nat)
    (h1 : st.currentThreadId = some tid)
    (h2 : st.reconnectAttempts < WebSocketService.maxReconnectAttempts) :
    WebSocketService.handleClose st tid code =
      ({ st with
          isConnecting := false
          ws := none
          reconnectAttempts := st.reconnectAttempts + 1
          reconnectTimeout := some (WebSocketService.backoffDelay st.reconnectAttempts) },
        some (WebSocketService.backoffDelay st.reconnectAttempts)) := by
  simp [WebSocketService.handleClose, h1, h2]

/-- Evaluating `connect` when the reconnect timer fires: no socket, same
thread still current, not already connecting — a fresh handshake starts
and the attempt counter is untouched. -/
theorem connect_after_close (st : WebSocketService.State) (tid : Int)
    (h0 : st.ws = none) (h1 : st.currentThreadId = some tid)
    (h2 : st.isConnecting = false) :
    WebSocketService.connect st tid =
      ({ st with
          reconnectTimeout := none
          isConnecting := true
          hasMessageHandler := true
          currentThreadId := some tid
          ws := some { readyState := WebSocketService.ReadyState.connecting }
          hasConnectionPromise := true },
        WebSocketService.ConnectAction.handshake) := by
  have hopen : WebSocketService.wsIsOpen st = false := by
    simp [WebSocketService.wsIsOpen, h0]
  simp [WebSocketService.connect, hopen, h1, h2]

/-- Unfolding one cycle of `runCycles`. -/
theorem runCycles_succ (tid : Int) (code : Nat) (st : WebSocketService.State) (k : Nat) :
    WebSocketService.runCycles tid code st (k + 1) =
      ((WebSocketService.runCycles tid code
          (WebSocketService.closeConnectCycle tid code st).1 k).1,
        (WebSocketService.closeConnectCycle tid code st).2.toList ++
          (WebSocketService.runCycles tid code
            (WebSocketService.closeConnectCycle tid code st).1 k).2) :=
  rfl

/-- The shape of `k` consecutive close/reconnect cycles while the thread
stays current and the ceiling is not reached: the attempt counter advances
by one per cycle and the scheduled delays are the successive backoff
values. -/
theorem runCycles_spec (tid : Int) (code : Nat) :
    ∀ (k : Nat) (st : WebSocketService.State),
      st.currentThreadId = some tid →
      st.reconnectAttempts + k ≤ WebSocketService.maxReconnectAttempts →
      (WebSocketService.runCycles tid code st k).1.reconnectAttempts =
          st.reconnectAttempts + k ∧
      (WebSocketService.runCycles tid code st k).1.currentThreadId = some tid ∧
      (WebSocketService.runCycles tid code st k).2 =
        (List.range k).map fun i => WebSocketService.backoffDelay (st.reconnectAttempts + i) := by
  intro k
  induction k with
  | zero =>
      intro st h1 h2
      simp [WebSocketService.runCycles, h1]
  | succ k ih =>
      intro st h1 h2
      have hlt : st.reconnectAttempts < WebSocketService.maxReconnectAttempts := by omega
      have hcycle : WebSocketService.closeConnectCycle tid code st =
          ({ st with
              reconnectTimeout := none
              isConnecting := true
              hasMessageHandler := true
              currentThreadId := some tid
              ws := some { readyState := WebSocketService.ReadyState.connecting }
              hasConnectionPromise := true
              reconnectAttempts := st.reconnectAttempts + 1 },
            some (WebSocketService.backoffDelay st.reconnectAttempts)) := by
        unfold WebSocketService.closeConnectCycle
        rw [handleClose_schedules st tid code h1 hlt]
        dsimp only
        rw [connect_after_close
          { ws := none
            hasMessageHandler := st.hasMessageHandler
            isConnecting := false
            reconnectAttempts := st.reconnectAttempts + 1
            currentThreadId := st.currentThreadId
            reconnectTimeout := some (WebSocketService.backoffDelay st.reconnectAttempts)
            hasConnectionPromise := st.hasConnectionPromise }
          tid rfl h1 rfl]
      obtain ⟨hs1, hs2, hs3⟩ := ih
        { st with
          reconnectTimeout := none
          isConnecting := true
          hasMessageHandler := true
          currentThreadId := some tid
          ws := some { readyState := WebSocketService.ReadyState.connecting }
          hasConnectionPromise := true
          reconnectAttempts := st.reconnectAttempts + 1 }
        rfl (by dsimp only; omega)
      dsimp only at hs1 hs3
      simp only [runCycles_succ, hcycle, Option.toList_some]
      refine ⟨?_, hs2, ?_⟩
      · rw [hs1]
        omega
      · rw [hs3, List.range_succ_eq_map, List.map_cons, List.map_map]
        have hfun : ((fun i => WebSocketService.backoffDelay (st.reconnectAttempts + i)) ∘
            Nat.succ) = fun i => WebSocketService.backoffDelay (st.reconnectAttempts + 1 + i) := by
          funext i
          show WebSocketService.backoffDelay _ = WebSocketService.backoffDelay _
          congr 1
          omega
        rw [hfun]
        congr 2
/-- An unconfirmed head contributes its temporary identifier. -/
theorem unconfirmedIds_cons_str (m : Chat.CMessage) (l : List Chat.CMessage) (s : String)
    (hm : m.id = Chat.MsgId.str s) :
    Chat.unconfirmedIds (m :: l) = s :: Chat.unconfirmedIds l := by
  simp [Chat.unconfirmedIds, List.filterMap_cons, hm]

/-- A confirmed head contributes nothing to the unconfirmed identifiers. -/
theorem unconfirmedIds_cons_num (m : Chat.CMessage) (l : List Chat.CMessage) (k : Int)
    (hm : m.id = Chat.MsgId.num k) :
    Chat.unconfirmedIds (m :: l) = Chat.unconfirmedIds l := by
  simp [Chat.unconfirmedIds, List.filterMap_cons, hm]

/-- `find` skips a head with a different identifier. -/
theorem findById_cons_ne (m : Chat.CMessage) (l : List Chat.CMessage) (t : String)
    (hm : ¬ m.id = Chat.MsgId.str t) :
    Chat.findById (m :: l) t = Chat.findById l t := by
  unfold Chat.findById
  rw [List.find?_cons_of_neg]
  simpa using hm

/-- `find` returns a head carrying the sought identifier. -/
theorem findById_cons_eq (m : Chat.CMessage) (l : List Chat.CMessage) (t : String)
    (hm : m.id = Chat.MsgId.str t) :
    Chat.findById (m :: l) t = some m := by
  unfold Chat.findById
  rw [List.find?_cons_of_pos]
  simpa using hm

/-- `find` skips a whole segment containing no element with the sought
identifier. -/
theorem findById_append_left_none (l1 l2 : List Chat.CMessage) (t : String)
    (h : ∀ m ∈ l1, ¬ m.id = Chat.MsgId.str t) :
    Chat.findById (l1 ++ l2) t = Chat.findById l2 t := by
  induction l1 with
  | nil => rfl
  | cons a l ih =>
      rw [List.cons_append, findById_cons_ne a (l ++ l2) t (h a (by simp))]
      exact ih fun m hm => h m (by simp [hm])

/-- The replacement map of `handleNewMessage` is the identity on a
sequence containing no optimistic message with the matching content. -/
theorem map_replace_eq_self (nm : Chat.CMessage) (l : List Chat.CMessage)
    (h : ∀ m ∈ l, Chat.isOptimisticFor nm.content m = false) :
    (l.map fun msg => if Chat.isOptimisticFor nm.content msg = true then nm else msg) = l := by
  have h1 : (l.map fun msg =>
      if Chat.isOptimisticFor nm.content msg = true then nm else msg) = l.map id := by
    apply List.map_congr_left
    intro a ha
    simp [h a ha]
  rw [h1, List.map_id]

/-- The rollback of a failed `handleSendMessage` restores the state it
found, provided the temporary identifier was fresh. -/
theorem sendMessageFailure_eq (msgs : List Chat.CMessage) (pending : List String)
    (t c : String) (tid : Int) (now : String)
    (hfresh : ∀ m ∈ msgs, ¬ m.id = Chat.MsgId.str t) (hnp : t ∉ pending) :
    Chat.sendMessageFailure msgs pending t c tid now = (msgs, pending, true) := by
  unfold Chat.sendMessageFailure Chat.sendMessageSuccess
  dsimp only
  have h1 : (msgs ++ [Chat.mkOptimistic t c tid now]).filter
      (fun m => decide (¬ m.id = Chat.MsgId.str t)) = msgs := by
    rw [List.filter_append]
    have ha : msgs.filter (fun m => decide (¬ m.id = Chat.MsgId.str t)) = msgs :=
      List.filter_eq_self.mpr fun m hm => by simpa using hfresh m hm
    have hb : [Chat.mkOptimistic t c tid now].filter
        (fun m => decide (¬ m.id = Chat.MsgId.str t)) = [] := by
      simp [Chat.mkOptimistic]
    rw [ha, hb, List.append_nil]
  have h2 : (pending ++ [t]).filter (fun x => decide (¬ x = t)) = pending := by
    rw [List.filter_append]
    have ha : pending.filter (fun x => decide (¬ x = t)) = pending :=
      List.filter_eq_self.mpr fun x hx => by
        simp only [decide_eq_true_eq]
        intro hxt
        exact hnp (hxt ▸ hx)
    have hb : [t].filter (fun x => decide (¬ x = t)) = [] := by simp
    rw [ha, hb, List.append_nil]
  rw [h1, h2]

/-- C1: when the observed sequence holds exactly one optimistic message
with content `C` (identifier `t`, the sole member of the pending set) and
a confirmed `user` message with content `C` is delivered, the confirmed
message replaces the optimistic one at the same position, the temporary
identifier leaves the pending set, and the sequence length is unchanged. -/
theorem pending_replaced_in_place (l1 l2 : List Chat.CMessage) (opt nm : Chat.CMessage)
    (t : String) (hid : opt.id = Chat.MsgId.str t) (hrole : opt.role = "user")
    (hpre : strStartsWith t "temp_" = true) (hcontent : opt.content = nm.content)
    (hnmrole : nm.role = "user") (hnmconf : Chat.isConfirmedMsg nm = true)
    (hl1 : ∀ m ∈ l1, Chat.isOptimisticFor nm.content m = false)
    (hl2 : ∀ m ∈ l2, Chat.isOptimisticFor nm.content m = false)
    (hl1id : ∀ m ∈ l1, ¬ m.id = Chat.MsgId.str t) :
    Chat.handleNewMessage (l1 ++ opt :: l2) [t] nm = (l1 ++ nm :: l2, []) ∧
    (l1 ++ nm :: l2).length = (l1 ++ opt :: l2).length := by
  have hopt : Chat.isOptimisticFor nm.content opt = true := by
    simp [Chat.isOptimisticFor, hcontent, hrole, hid, hpre]
  have hfind : Chat.findById (l1 ++ opt :: l2) t = some opt := by
    rw [findById_append_left_none l1 (opt :: l2) t hl1id]
    exact findById_cons_eq opt l2 t hid
  constructor
  · unfold Chat.handleNewMessage
    rw [if_pos hnmrole]
    dsimp only
    have hmap : ((l1 ++ opt :: l2).map fun msg =>
        if Chat.isOptimisticFor nm.content msg = true then nm else msg) = l1 ++ nm :: l2 := by
      rw [List.map_append, List.map_cons, map_replace_eq_self nm l1 hl1,
        map_replace_eq_self nm l2 hl2, if_pos hopt]
    have hpend : ([t].filter fun tempId =>
        match Chat.findById (l1 ++ opt :: l2) tempId with
        | some m => decide (¬ m.content = nm.content)
        | none => true) = [] := by
      simp [List.filter, hfind, hcontent]
    rw [hmap, hpend]
  · simp

/-- The assistant message used in the C1 witness sequence. -/
def w1Assistant : Chat.CMessage :=
  { id := Chat.MsgId.num 1000
    content := "hi there"
    role := "assistant"
    created_at := "t0"
    thread_id := 42 }

/-- The optimistic message used in the C1 witness sequence. -/
def w1Optimistic : Chat.CMessage :=
  { id := Chat.MsgId.str "temp_1"
    content := "hello"
    role := "user"
    created_at := "t1"
    thread_id := 42 }

/-- The confirmed user message used in the C1 witness sequence. -/
def w1Confirmed : Chat.CMessage :=
  { id := Chat.MsgId.num 1001
    content := "hello"
    role := "user"
    created_at := "t2"
    thread_id := 42 }

/-- C1 witness: the replacement at the concrete two-element sequence. -/
theorem pending_replaced_in_place_witness :
    Chat.handleNewMessage ([w1Assistant] ++ w1Optimistic :: []) ["temp_1"] w1Confirmed =
      ([w1Assistant] ++ w1Confirmed :: [], []) ∧
    ([w1Assistant] ++ w1Confirmed :: []).length =
      ([w1Assistant] ++ w1Optimistic :: []).length :=
  pending_replaced_in_place [w1Assistant] [] w1Optimistic w1Confirmed "temp_1" rfl rfl
    (by decide) rfl rfl rfl (by decide) (by decide) (by decide)

/-- C9: a confirmed `user` message whose content matches no optimistic
message of the observed sequence leaves the sequence unchanged — it is
silently dropped, never appended. -/
theorem foreign_user_message_dropped (prev : List Chat.CMessage) (pending : List String)
    (nm : Chat.CMessage) (hrole : nm.role = "user")
    (hnone : ∀ m ∈ prev, Chat.isOptimisticFor nm.content m = false) :
    (Chat.handleNewMessage prev pending nm).1 = prev := by
  unfold Chat.handleNewMessage
  rw [if_pos hrole]
  exact map_replace_eq_self nm prev hnone

/-- A confirmed user message authored by another client, used in the C9
witness. -/
def w9Foreign : Chat.CMessage :=
  { id := Chat.MsgId.num 2001
    content := "greetings from elsewhere"
    role := "user"
    created_at := "t5"
    thread_id := 42 }

/-- A confirmed user message already present in the C9 witness sequence. -/
def w9Existing : Chat.CMessage :=
  { id := Chat.MsgId.num 1001
    content := "hello"
    role := "user"
    created_at := "t2"
    thread_id := 42 }

/-- C9 witness: the foreign user message is dropped at a concrete state. -/
theorem foreign_user_message_dropped_witness :
    (Chat.handleNewMessage [w9Existing] ["temp_3"] w9Foreign).1 = [w9Existing] :=
  foreign_user_message_dropped [w9Existing] ["temp_3"] w9Foreign rfl (by decide)

/-- C5: a `handleSendMessage` call whose transmission fails removes
exactly the optimistic message it created — identified by its fresh
temporary identifier — from both the observed sequence and the pending
set, leaves every other element unchanged in its original order, and
surfaces the failure: the state is exactly as before the call. -/
theorem failed_send_rolls_back (msgs : List Chat.CMessage) (pending : List String)
    (t c : String) (tid : Int) (now : String)
    (hfresh : ∀ m ∈ msgs, ¬ m.id = Chat.MsgId.str t) (hnp : t ∉ pending) :
    Chat.sendMessageFailure msgs pending t c tid now = (msgs, pending, true) :=
  sendMessageFailure_eq msgs pending t c tid now hfresh hnp

/-- C5 witness: the rollback at a concrete one-element sequence. -/
theorem failed_send_rolls_back_witness :
    Chat.sendMessageFailure [w1Assistant] [] "temp_9" "hi" 42 "t6" =
      ([w1Assistant], [], true) :=
  failed_send_rolls_back [w1Assistant] [] "temp_9" "hi" 42 "t6" (by decide) (by decide)

/-- The length of the observed sequence splits into its confirmed count
plus its unconfirmed count. -/
theorem length_eq_countP_add (msgs : List Chat.CMessage) :
    msgs.length =
      List.countP Chat.isConfirmedMsg msgs + (Chat.unconfirmedIds msgs).length := by
  induction msgs with
  | nil => rfl
  | cons m l ih =>
      cases hm : m.id with
      | num k =>
          have hc : Chat.isConfirmedMsg m = true := by simp [Chat.isConfirmedMsg, hm]
          rw [List.length_cons, unconfirmedIds_cons_num m l k hm, List.countP_cons, hc]
          simp only [if_true]
          omega
      | str s =>
          have hc : Chat.isConfirmedMsg m = false := by simp [Chat.isConfirmedMsg, hm]
          rw [List.length_cons, unconfirmedIds_cons_str m l s hm, List.countP_cons, hc]
          simp only [Bool.false_eq_true, if_false, List.length_cons]
          omega

/-- Membership of an unconfirmed identifier. -/
theorem mem_unconfirmedIds (msgs : List Chat.CMessage) (m : Chat.CMessage) (t : String)
    (hm : m ∈ msgs) (hid : m.id = Chat.MsgId.str t) : t ∈ Chat.unconfirmedIds msgs := by
  rw [Chat.unconfirmedIds, List.mem_filterMap]
  exact ⟨m, hm, by rw [hid]⟩

/-- The heart of the reconciliation invariant: under well-formedness and
distinctness, the identifiers left unconfirmed by the in-place replacement
of `handleNewMessage` are exactly the pending identifiers its filter
keeps. -/
theorem unconfirmedIds_map_replace (nm : Chat.CMessage) :
    ∀ msgs : List Chat.CMessage,
      (∀ m ∈ msgs, Chat.wfMsg m = true) →
      (Chat.unconfirmedIds msgs).Nodup →
      Chat.isConfirmedMsg nm = true →
      Chat.unconfirmedIds (msgs.map fun msg =>
          if Chat.isOptimisticFor nm.content msg = true then nm else msg) =
        (Chat.unconfirmedIds msgs).filter fun tempId =>
          match Chat.findById msgs tempId with
          | some x => decide (¬ x.content = nm.content)
          | none => true := by
  intro msgs
  induction msgs with
  | nil => intro _ _ _; rfl
  | cons m rest ih =>
      intro hwf hnd hconf
      have hwrest : ∀ x ∈ rest, Chat.wfMsg x = true := fun x hx => hwf x (by simp [hx])
      obtain ⟨n, hnmid⟩ : ∃ n, nm.id = Chat.MsgId.num n := by
        cases hx : nm.id with
        | num n => exact ⟨n, rfl⟩
        | str s => simp [Chat.isConfirmedMsg, hx] at hconf
      cases hm : m.id with
      | num k =>
          have hopt : Chat.isOptimisticFor nm.content m = false := by
            simp [Chat.isOptimisticFor, hm]
          have hnd1 : (Chat.unconfirmedIds rest).Nodup := by
            rwa [unconfirmedIds_cons_num m rest k hm] at hnd
          have hpred : ∀ t ∈ Chat.unconfirmedIds rest,
              (match Chat.findById (m :: rest) t with
               | some x => decide (¬ x.content = nm.content)
               | none => true) =
              (match Chat.findById rest t with
               | some x => decide (¬ x.content = nm.content)
               | none => true) := by
            intro t ht
            rw [findById_cons_ne m rest t (by simp [hm])]
          rw [List.map_cons, if_neg (by simp [hopt]),
            unconfirmedIds_cons_num m (rest.map fun msg =>
              if Chat.isOptimisticFor nm.content msg = true then nm else msg) k hm,
            unconfirmedIds_cons_num m rest k hm, List.filter_congr hpred]
          exact ih hwrest hnd1 hconf
      | str s =>
          have hmwf : m.role = "user" ∧ strStartsWith s "temp_" = true := by
            have h0 := hwf m (by simp)
            simpa [Chat.wfMsg, hm] using h0
          rw [unconfirmedIds_cons_str m rest s hm] at hnd
          rw [List.nodup_cons] at hnd
          obtain ⟨hs, hnd1⟩ := hnd
          have hopt_eq : Chat.isOptimisticFor nm.content m = decide (m.content = nm.content) := by
            simp [Chat.isOptimisticFor, hm, hmwf.1, hmwf.2]
          have hfindhead : Chat.findById (m :: rest) s = some m :=
            findById_cons_eq m rest s hm
          have hpred : ∀ t ∈ Chat.unconfirmedIds rest,
              (match Chat.findById (m :: rest) t with
               | some x => decide (¬ x.content = nm.content)
               | none => true) =
              (match Chat.findById rest t with
               | some x => decide (¬ x.content = nm.content)
               | none => true) := by
            intro t ht
            rw [findById_cons_ne m rest t (by
              rw [hm]
              intro hcon
              injection hcon with he
              exact hs (by rw [he]; exact ht))]
          by_cases hc : m.content = nm.content
          · have hps : (match Chat.findById (m :: rest) s with
                | some x => decide (¬ x.content = nm.content)
                | none => true) = false := by
              rw [hfindhead]
              simp [hc]
            rw [List.map_cons, if_pos (by rw [hopt_eq]; exact decide_eq_true hc),
              unconfirmedIds_cons_num nm (rest.map fun msg =>
                if Chat.isOptimisticFor nm.content msg = true then nm else msg) n hnmid,
              unconfirmedIds_cons_str m rest s hm, List.filter_cons, hps]
            simp only [Bool.false_eq_true, if_false]
            rw [List.filter_congr hpred]
            exact ih hwrest hnd1 hconf
          · have hps : (match Chat.findById (m :: rest) s with
                | some x => decide (¬ x.content = nm.content)
                | none => true) = true := by
              rw [hfindhead]
              simp [hc]
            rw [List.map_cons, if_neg (by rw [hopt_eq]; simp [hc]),
              unconfirmedIds_cons_str m (rest.map fun msg =>
                if Chat.isOptimisticFor nm.content msg = true then nm else msg) s hm,
              unconfirmedIds_cons_str m rest s hm, List.filter_cons, hps]
            simp only [if_true]
            rw [List.filter_congr hpred]
            rw [ih hwrest hnd1 hconf]

/-- Delivery of a confirmed message preserves the reconciliation
invariant. -/
theorem chatInv_handleNewMessage (msgs : List Chat.CMessage) (pending : List String)
    (nm : Chat.CMessage) (h : Chat.ChatInv msgs pending)
    (hconf : Chat.isConfirmedMsg nm = true) :
    Chat.ChatInv (Chat.handleNewMessage msgs pending nm).1
      (Chat.handleNewMessage msgs pending nm).2 := by
  obtain ⟨hu, hnd, hwf⟩ := h
  obtain ⟨n, hnmid⟩ : ∃ n, nm.id = Chat.MsgId.num n := by
    cases hx : nm.id with
    | num n => exact ⟨n, rfl⟩
    | str s => simp [Chat.isConfirmedMsg, hx] at hconf
  by_cases hrole : nm.role = "user"
  · unfold Chat.handleNewMessage
    rw [if_pos hrole]
    dsimp only
    refine ⟨?_, List.Nodup.filter _ hnd, ?_⟩
    · rw [unconfirmedIds_map_replace nm msgs hwf (by rwa [hu]) hconf, hu]
    · intro m1 hm1
      rw [List.mem_map] at hm1
      obtain ⟨m, hm, rfl⟩ := hm1
      by_cases hio : Chat.isOptimisticFor nm.content m = true
      · rw [if_pos hio]
        simp [Chat.wfMsg, hnmid]
      · rw [if_neg hio]
        exact hwf m hm
  · unfold Chat.handleNewMessage
    rw [if_neg hrole]
    refine ⟨?_, hnd, ?_⟩
    · have h1 : Chat.unconfirmedIds (msgs ++ [nm]) =
          Chat.unconfirmedIds msgs ++ Chat.unconfirmedIds [nm] := by
        simp [Chat.unconfirmedIds]
      have h2 : Chat.unconfirmedIds [nm] = [] := by
        simp [Chat.unconfirmedIds, hnmid]
      rw [h1, h2, List.append_nil, hu]
    · intro x hx
      rw [List.mem_append] at hx
      rcases hx with hx | hx
      · exact hwf x hx
      · rw [List.mem_singleton] at hx
        subst hx
        simp [Chat.wfMsg, hnmid]

/-- A successful send preserves the reconciliation invariant. -/
theorem chatInv_sendOk (msgs : List Chat.CMessage) (pending : List String)
    (t c : String) (tid : Int) (now : String) (h : Chat.ChatInv msgs pending)
    (hnp : t ∉ pending) (hpre : strStartsWith t "temp_" = true) :
    Chat.ChatInv (Chat.sendMessageSuccess msgs pending t c tid now).1
      (Chat.sendMessageSuccess msgs pending t c tid now).2 := by
  obtain ⟨hu, hnd, hwf⟩ := h
  unfold Chat.sendMessageSuccess
  refine ⟨?_, ?_, ?_⟩
  · have h1 : Chat.unconfirmedIds (msgs ++ [Chat.mkOptimistic t c tid now]) =
        Chat.unconfirmedIds msgs ++ [t] := by
      simp [Chat.unconfirmedIds, Chat.mkOptimistic]
    rw [h1, hu]
  · rw [List.nodup_append]
    exact ⟨hnd, List.nodup_singleton t, by
      intro x hx hxt
      rw [List.mem_singleton] at hxt
      exact hnp (hxt ▸ hx)⟩
  · intro m hm
    rw [List.mem_append] at hm
    rcases hm with hm | hm
    · exact hwf m hm
    · rw [List.mem_singleton] at hm
      subst hm
      simp [Chat.wfMsg, Chat.mkOptimistic, hpre]

/-- A failed send preserves the reconciliation invariant (the rollback
restores the state it found). -/
theorem chatInv_sendFail (msgs : List Chat.CMessage) (pending : List String)
    (t c : String) (tid : Int) (now : String) (h : Chat.ChatInv msgs pending)
    (hnp : t ∉ pending) :
    Chat.ChatInv (Chat.sendMessageFailure msgs pending t c tid now).1
      (Chat.sendMessageFailure msgs pending t c tid now).2.1 := by
  have hfresh : ∀ m ∈ msgs, ¬ m.id = Chat.MsgId.str t := by
    intro m hm hcon
    exact hnp (h.1 ▸ mem_unconfirmedIds msgs m t hm hcon)
  rw [sendMessageFailure_eq msgs pending t c tid now hfresh hnp]
  exact h

/-- Every well-formed event preserves the reconciliation invariant. -/
theorem chatInv_step (s : List Chat.CMessage × List String) (e : Chat.ChatEv)
    (h : Chat.ChatInv s.1 s.2) (he : Chat.evOk s e) :
    Chat.ChatInv (Chat.chatStep s e).1 (Chat.chatStep s e).2 := by
  cases e with
  | sendOk t c tid now => exact chatInv_sendOk s.1 s.2 t c tid now h he.1 he.2
  | sendFail t c tid now => exact chatInv_sendFail s.1 s.2 t c tid now h he.1
  | recv m => exact chatInv_handleNewMessage s.1 s.2 m h he

/-- C2: along every well-formed trace of sends, failures and confirmed
deliveries starting from a state satisfying the reconciliation invariant,
the invariant is preserved and the length of the observed sequence equals
its confirmed-message count plus the size of the pending set.  Every
prefix of a well-formed trace is itself well formed, so the equation holds
after every step. -/
theorem observed_length_invariant (es : List Chat.ChatEv) :
    ∀ s : List Chat.CMessage × List String, Chat.ChatInv s.1 s.2 → Chat.goodTrace s es →
      Chat.ChatInv (Chat.chatRun s es).1 (Chat.chatRun s es).2 ∧
      (Chat.chatRun s es).1.length =
        List.countP Chat.isConfirmedMsg (Chat.chatRun s es).1 +
          (Chat.chatRun s es).2.length := by
  induction es with
  | nil =>
      intro s h _
      refine ⟨h, ?_⟩
      have h1 := length_eq_countP_add s.1
      rw [h.1] at h1
      simpa [Chat.chatRun] using h1
  | cons e es ih =>
      intro s h hg
      have hstep := chatInv_step s e h hg.1
      have h2 := ih (Chat.chatStep s e) hstep hg.2
      simpa [Chat.chatRun, List.foldl_cons] using h2

/-- The server-confirmed user message of the C2 witness trace. -/
def w2Confirmed : Chat.CMessage :=
  { id := Chat.MsgId.num 1001
    content := "hello"
    role := "user"
    created_at := "t2"
    thread_id := 42 }

/-- The assistant reply of the C2 witness trace. -/
def w2Assistant : Chat.CMessage :=
  { id := Chat.MsgId.num 1002
    content := "how can I help"
    role := "assistant"
    created_at := "t3"
    thread_id := 42 }

/-- The C2 witness trace: a successful optimistic send, its confirmation,
an assistant reply, and a failed send. -/
def w2Trace : List Chat.ChatEv :=
  [Chat.ChatEv.sendOk "temp_1" "hello" 42 "t1",
    Chat.ChatEv.recv w2Confirmed,
    Chat.ChatEv.recv w2Assistant,
    Chat.ChatEv.sendFail "temp_2" "oops" 42 "t4"]

/-- C2 witness: the invariant and the length equation hold after running
the concrete trace from the empty state. -/
theorem observed_length_invariant_witness :
    Chat.ChatInv (Chat.chatRun ([], []) w2Trace).1 (Chat.chatRun ([], []) w2Trace).2 ∧
    (Chat.chatRun ([], []) w2Trace).1.length =
      List.countP Chat.isConfirmedMsg (Chat.chatRun ([], []) w2Trace).1 +
        (Chat.chatRun ([], []) w2Trace).2.length :=
  observed_length_invariant w2Trace ([], [])
    ⟨rfl, List.nodup_nil, by simp⟩
    ⟨⟨by decide, by decide⟩, ⟨rfl, ⟨rfl, ⟨⟨by decide, by decide⟩, trivial⟩⟩⟩⟩

/-- A syntactically complete inbound payload whose `created_at` is a
malformed string that happens to contain the character `T`. -/
def malformedTPayload : WebSocketService.RawMessageData :=
  { id := WebSocketService.JSVal.vnum 7
    thread_id := WebSocketService.JSVal.vnum 42
    content := WebSocketService.JSVal.vstr "hi"
    role := WebSocketService.JSVal.vstr "user"
    created_at := some "Tgarbage" }

/-- C8 counterexample: with a date library under which every string is
malformed (`toISOString` throws on everything), the payload whose
`created_at` is the malformed string `"Tgarbage"` parses to a message
carrying `"Tgarbage"` verbatim — the current time is NOT substituted,
because the branch that validates the date is skipped for any string
containing `T`. -/
theorem created_at_malformed_T_kept :
    WebSocketService.parseMessage (fun _ => none) "2024-01-01T00:00:00.000Z"
        malformedTPayload =
      some
        { id := WebSocketService.JSVal.vnum 7
          thread_id := WebSocketService.JSVal.vnum 42
          content := WebSocketService.JSVal.vstr "hi"
          role := WebSocketService.JSVal.vstr "user"
          created_at := "Tgarbage" } ∧
    ¬ ("Tgarbage" = "2024-01-01T00:00:00.000Z") := by
  constructor
  · decide
  · decide

/-- C8 amended: parsing never aborts on a bad `created_at` — whenever the
four required fields are truthy the payload parses to `some` message —
and the current time is substituted when `created_at` is absent, empty,
or malformed WITHOUT containing the character `T`; a nonempty value
containing `T` is carried through unchanged, validated or not. -/
theorem created_at_fallback (dateToISO : String → Option String) (now : String) :
    WebSocketService.normalizeCreatedAt dateToISO now none = now ∧
    WebSocketService.normalizeCreatedAt dateToISO now (some "") = now ∧
    (∀ s, ¬ s = "" → strIncludesT s = false → dateToISO s = none →
      WebSocketService.normalizeCreatedAt dateToISO now (some s) = now) ∧
    (∀ s, ¬ s = "" → strIncludesT s = true →
      WebSocketService.normalizeCreatedAt dateToISO now (some s) = s) ∧
    (∀ d : WebSocketService.RawMessageData,
      WebSocketService.truthy d.id = true → WebSocketService.truthy d.thread_id = true →
      WebSocketService.truthy d.content = true → WebSocketService.truthy d.role = true →
      WebSocketService.parseMessage dateToISO now d =
        some
          { id := d.id
            thread_id := d.thread_id
            content := d.content
            role := d.role
            created_at := WebSocketService.normalizeCreatedAt dateToISO now d.created_at }) := by
  refine ⟨?_, ?_, ?_, ?_, ?_⟩
  · simp [WebSocketService.normalizeCreatedAt]
  · simp [WebSocketService.normalizeCreatedAt]
  · intro s hs hT hmal
    simp [WebSocketService.normalizeCreatedAt, hs, hT, hmal]
  · intro s hs hT
    simp [WebSocketService.normalizeCreatedAt, hs, hT]
  · intro d ha hb hc hd
    simp [WebSocketService.parseMessage, ha, hb, hc, hd]

/-- C8 witness: concrete evaluations of the fallback behavior under a
date library rejecting every string. -/
theorem created_at_fallback_witness :
    WebSocketService.normalizeCreatedAt (fun _ => none) "NOW" none = "NOW" ∧
    WebSocketService.normalizeCreatedAt (fun _ => none) "NOW" (some "garbage") = "NOW" ∧
    WebSocketService.normalizeCreatedAt (fun _ => none) "NOW" (some "Tgarbage") =
      "Tgarbage" := by
  refine ⟨(created_at_fallback (fun _ => none) "NOW").1, ?_, ?_⟩
  · exact (created_at_fallback (fun _ => none) "NOW").2.2.1 "garbage" (by decide)
      (by decide) rfl
  · exact (created_at_fallback (fun _ => none) "NOW").2.2.2.1 "Tgarbage" (by decide)
      (by decide)

/-- C10: an inbound payload with any falsy required field (`id`,
`thread_id`, `content` or `role` — numeric `0` and the empty string
included) is rejected by `parseMessage` and never delivered to the
registered message handler. -/
theorem falsy_field_rejected (dateToISO : String → Option String) (now : String)
    (curTid : WebSocketService.JSVal) (hasHandler : Bool)
    (d : WebSocketService.RawMessageData)
    (h : WebSocketService.truthy d.id = false ∨ WebSocketService.truthy d.thread_id = false ∨
      WebSocketService.truthy d.content = false ∨ WebSocketService.truthy d.role = false) :
    WebSocketService.parseMessage dateToISO now d = none ∧
    WebSocketService.deliverInbound dateToISO now curTid hasHandler d = none := by
  have hp : WebSocketService.parseMessage dateToISO now d = none := by
    unfold WebSocketService.parseMessage
    rw [if_neg]
    intro hcon
    rcases h with h | h | h | h <;> simp [h] at hcon
  refine ⟨hp, ?_⟩
  unfold WebSocketService.deliverInbound
  rw [hp]

/-- A payload with the present-but-falsy numeric id `0`. -/
def zeroIdPayload : WebSocketService.RawMessageData :=
  { id := WebSocketService.JSVal.vnum 0
    thread_id := WebSocketService.JSVal.vnum 42
    content := WebSocketService.JSVal.vstr "hi"
    role := WebSocketService.JSVal.vstr "user"
    created_at := some "2024-01-01T00:00:00.000Z" }

/-- A payload with the present-but-falsy empty `content`. -/
def emptyContentPayload : WebSocketService.RawMessageData :=
  { id := WebSocketService.JSVal.vnum 5
    thread_id := WebSocketService.JSVal.vnum 42
    content := WebSocketService.JSVal.vstr ""
    role := WebSocketService.JSVal.vstr "user"
    created_at := some "2024-01-01T00:00:00.000Z" }

/-- C10 witness: the payloads with numeric id `0` and with empty content
are rejected and not delivered. -/
theorem falsy_field_rejected_witness :
    (WebSocketService.parseMessage (fun _ => none) "NOW" zeroIdPayload = none ∧
      WebSocketService.deliverInbound (fun _ => none) "NOW"
        (WebSocketService.JSVal.vnum 42) true zeroIdPayload = none) ∧
    (WebSocketService.parseMessage (fun _ => none) "NOW" emptyContentPayload = none ∧
      WebSocketService.deliverInbound (fun _ => none) "NOW"
        (WebSocketService.JSVal.vnum 42) true emptyContentPayload = none) :=
  ⟨falsy_field_rejected (fun _ => none) "NOW" (WebSocketService.JSVal.vnum 42) true
      zeroIdPayload (Or.inl (by decide)),
    falsy_field_rejected (fun _ => none) "NOW" (WebSocketService.JSVal.vnum 42) true
      emptyContentPayload (Or.inr (Or.inr (Or.inl (by decide))))⟩

/-- C4: starting from a connected state on thread `tid` with a zeroed
attempt counter, `K ≤ 5` consecutive unexpected closes (each followed by
the scheduled reconnect attempt) schedule exactly `K` reconnects whose
delays are the successive backoff values `min (1000 * 2 ^ a) 10000` — a
strictly increasing sequence; when the ceiling of 5 is reached a further
close schedules nothing; and a subsequent successful connection resets
the counter to zero. -/
theorem reconnect_backoff_schedule (st0 : WebSocketService.State) (tid : Int)
    (code : Nat) (K : Nat) (h1 : st0.currentThreadId = some tid)
    (h2 : st0.reconnectAttempts = 0) (h3 : K ≤ 5) :
    (WebSocketService.runCycles tid code st0 K).2 =
        (List.range K).map WebSocketService.backoffDelay ∧
    (WebSocketService.runCycles tid code st0 K).2.length = K ∧
    List.Pairwise (· < ·) (WebSocketService.runCycles tid code st0 K).2 ∧
    (K = 5 →
      (WebSocketService.handleClose (WebSocketService.runCycles tid code st0 K).1 tid
          code).2 = none) ∧
    (WebSocketService.handleOpen
        (WebSocketService.runCycles tid code st0 K).1).reconnectAttempts = 0 := by
  obtain ⟨hs1, hs2, hs3⟩ := runCycles_spec tid code K st0 h1 (by
    rw [h2]
    simpa [WebSocketService.maxReconnectAttempts] using h3)
  have hdelays : (WebSocketService.runCycles tid code st0 K).2 =
      (List.range K).map WebSocketService.backoffDelay := by
    rw [hs3, h2]
    simp
  refine ⟨hdelays, ?_, ?_, ?_, ?_⟩
  · rw [hdelays]
    simp
  · rw [hdelays]
    interval_cases K <;> decide
  · intro hK
    subst hK
    rw [h2] at hs1
    unfold WebSocketService.handleClose
    rw [if_neg]
    intro hcon
    rw [hs1] at hcon
    exact absurd hcon.2 (by decide)
  · simp [WebSocketService.handleOpen]

/-- A connected state on thread 7 used to witness the backoff schedule. -/
def connectedState7 : WebSocketService.State :=
  { ws := some { readyState := WebSocketService.ReadyState.opened }
    hasMessageHandler := true
    isConnecting := false
    reconnectAttempts := 0
    currentThreadId := some 7
    reconnectTimeout := none
    hasConnectionPromise := true }

/-- C4 witness: five consecutive unexpected closes on thread 7 schedule
the delays 1000, 2000, 4000, 8000, 10000 and then stop. -/
theorem reconnect_backoff_schedule_witness :
    (WebSocketService.runCycles 7 1006 connectedState7 5).2 =
        (List.range 5).map WebSocketService.backoffDelay ∧
    (WebSocketService.runCycles 7 1006 connectedState7 5).2.length = 5 ∧
    List.Pairwise (· < ·) (WebSocketService.runCycles 7 1006 connectedState7 5).2 ∧
    (5 = 5 →
      (WebSocketService.handleClose (WebSocketService.runCycles 7 1006 connectedState7 5).1 7
          1006).2 = none) ∧
    (WebSocketService.handleOpen
        (WebSocketService.runCycles 7 1006 connectedState7 5).1).reconnectAttempts = 0 :=
  reconnect_backoff_schedule connectedState7 7 1006 5 rfl rfl (by decide)

theorem connect_idempotent_same_thread_witness :
    WebSocketService.connect connectedState42 42 =
      (connectedState42, WebSocketService.ConnectAction.noop) :=
  connect_idempotent_same_thread connectedState42
    { readyState := WebSocketService.ReadyState.opened } 42 rfl rfl rfl
